import Mathlib

/-!
Shallow embedding of `src/weather-station.js` (the WeatherStation protocol
layer: advertisement decoding, discovery scanning, reading aggregation, the
connection handshake and the command/response channel).

Modelling conventions:
* JS strings are modelled as their lists of UTF-16 code units (`List Nat`);
  `codeUnits` converts a Lean string literal for readability.
* `Buffer` values are modelled as `List Nat` (byte lists).
* The event-driven control flow (noble events, promise settlement) is
  modelled per operation as a step function over an explicit event trace;
  a promise's settlement is an `Option (Except err val)` field that is
  written at most once (`settleWith`), mirroring promise semantics.
* JS falsy short-circuits (`addresses && ...`, `address && ...`) are
  modelled with `Option` or emptiness tests, as noted at each definition.
-/

namespace WeatherStation

/-- Code units of a Lean string literal, used to write the JS string
constants of the source readably. -/
def codeUnits (s : String) : List Nat :=
  s.toList.map Char.toNat

/-- ASCII lowercasing of one UTF-16 code unit, the effect of JS
`String.prototype.toLowerCase` on the ASCII range (the only range the
program manipulates: hex addresses and separators). -/
def jsToLowerCode (u : Nat) : Nat :=
  if 65 ≤ u ∧ u ≤ 90 then u + 32 else u

/-- JS `s.toLowerCase()` on a code-unit string (ASCII range). -/
def jsToLower (s : List Nat) : List Nat :=
  s.map jsToLowerCode

/-- JS `s.replace(/:/g, '')`: drop every colon (code unit 58). -/
def stripColons (s : List Nat) : List Nat :=
  s.filter (fun u => u ≠ 58)

/-- One entry of `getNormalizedAddresses` (weather-station.js:17):
`address.toLowerCase().replace(/:/g, '')`. -/
def normalizeAddress (s : List Nat) : List Nat :=
  stripColons (jsToLower s)

/-- Embeds `getNormalizedAddresses` (weather-station.js:15-19):
`addresses && addresses.length > 0 && addresses.map(...)`. The JS value is
either falsy (`null` input, or `false` for an empty array) or the mapped
array; `none` stands for the falsy results. -/
def getNormalizedAddresses (addresses : Option (List (List Nat))) :
    Option (List (List Nat)) :=
  match addresses with
  | none => none
  | some l => if l.length > 0 then some (l.map normalizeAddress) else none

/-- Embeds the allow-list guard `addresses && addresses.indexOf(address) === -1`
used in `scan` (weather-station.js:52) and `scanForReadings`
(weather-station.js:111): `true` means the handler returns early. -/
def allowListRejects (addresses : Option (List (List Nat))) (address : List Nat) :
    Bool :=
  match addresses with
  | none => false
  | some l => !(l.contains address)

/-- Manufacturer identifier constant (weather-station.js:6). -/
def COMPANY_ID : Nat := 0x4842

/-- `data.readUInt16LE(off)` on a byte list. -/
def readUInt16LE (data : List Nat) (off : Nat) : Nat :=
  data.getD off 0 + 256 * data.getD (off + 1) 0

/-- `data.readUIntLE(off, 6)` on a byte list (6-byte little-endian read). -/
def readUIntLE6 (data : List Nat) (off : Nat) : Nat :=
  data.getD off 0 + 256 * (data.getD (off + 1) 0 + 256 * (data.getD (off + 2) 0
    + 256 * (data.getD (off + 3) 0 + 256 * (data.getD (off + 4) 0
    + 256 * data.getD (off + 5) 0))))

/-- JS `n.toString(16)` for a natural number: lowercase hex digits, no
leading zeros, as code units. `Nat.toDigits 16` produces exactly the
lowercase digit characters. -/
def natToHex (n : Nat) : List Nat :=
  (Nat.toDigits 16 n).map Char.toNat

/-- Embeds the discover handler of `scanForReadings`
(weather-station.js:98-120) up to the hand-off to the external reading
decoder: `some tail` means `tail = data.slice(8)` is passed to
`Reading.parseReadings`; `none` means the handler returned without
decoding, so the advertisement yields no readings.
`paddr` is `peripheral.address`; the handler uses
`peripheral.address && peripheral.address.replace(/:/g, '')` and skips the
embedded-address comparison when that value is falsy (empty). -/
def scanForReadingsHandler (data : List Nat) (paddr : List Nat)
    (addresses : Option (List (List Nat))) : Option (List Nat) :=
  if data.length < 9 ∨ readUInt16LE data 0 ≠ COMPANY_ID then none
  else if stripColons paddr ≠ [] ∧ natToHex (readUIntLE6 data 2) ≠ stripColons paddr then none
  else if allowListRejects addresses (stripColons paddr) then none
  else some (data.drop 8)

/-- Writes a value into a promise-settlement slot: the first settlement
wins, later ones are no-ops (JS promise semantics). -/
def settleWith {α : Type} (cur : Option α) (v : α) : Option α :=
  match cur with
  | none => some v
  | some w => some w

/-- Events observable by one `_write` call (weather-station.js:334-352):
a `data` event on the notify characteristic (payload plus the
`isNotification` flag), or the write callback firing with an optional
error. -/
inductive ChEvent where
  | notif (payload : List Nat) (isNotif : Bool)
  | writeDone (err : Option (List Nat))
deriving DecidableEq

/-- State of one `_write` call: whether `dataHandler` is still registered
on the notify characteristic, and the settlement of the returned promise
(`Except` error message or full response payload). -/
structure ChState where
  listenerOn : Bool
  outcome : Option (Except (List Nat) (List Nat))

/-- Initial `_write` state: `dataHandler` is registered before the write is
issued (weather-station.js:342-344), and the promise is pending. -/
def chInit : ChState :=
  { listenerOn := true, outcome := none }

/-- One event of `_write` (weather-station.js:334-352). `dataHandler` runs
only while registered; it accepts a payload iff `isNotification` is set and
byte 0 equals `responseCommand`, then removes itself and resolves with the
full payload. The write callback on error removes the handler and rejects.
(The `this.emit('write', ...)` side channel is not modelled.) -/
def chStep (responseCommand : Nat) (s : ChState) : ChEvent → ChState
  | .notif payload isN =>
      if s.listenerOn = true ∧ isN = true ∧ payload.head? = some responseCommand then
        { listenerOn := false, outcome := settleWith s.outcome (.ok payload) }
      else s
  | .writeDone none => s
  | .writeDone (some e) =>
      { listenerOn := false, outcome := settleWith s.outcome (.error e) }

/-- Run one `_write` call over an event trace. -/
def chRun (responseCommand : Nat) (events : List ChEvent) : ChState :=
  events.foldl (chStep responseCommand) chInit

/-- The acceptance test of `dataHandler` as a Boolean on (payload, flag)
pairs: flagged as a notification and byte 0 equals the expected code. -/
def chNotifMatches (responseCommand : Nat) (p : List Nat × Bool) : Bool :=
  p.2 && (p.1.head? == some responseCommand)

/-- A discovered peripheral as the scan handlers see it: its advertised
address and its `advertisement.manufacturerData`. -/
structure Peripheral where
  address : List Nat
  manufacturerData : List Nat
deriving DecidableEq

/-- Events delivered to an active scan session (either mode): a `discover`
event, the `scanStop` event, or a `stateChange` event. -/
inductive ScanEvent where
  | discover (p : Peripheral)
  | scanStop
  | stateChange (st : List Nat)
deriving DecidableEq

/-- The adapter state string `'poweredOn'`. -/
def poweredOnState : List Nat := codeUnits "poweredOn"

/-- The rejection message `'State changed to ' + state` used by both scan
modes (weather-station.js:77 and 135). -/
def stateChangedMessage (st : List Nat) : List Nat :=
  codeUnits "State changed to " ++ st

/-- State of one `scan` session (weather-station.js:45-93) after
`startScanning` succeeded: whether the three listeners are still
registered, the accumulated stations, whether `noble.stopScanning()` was
invoked by the state-change handler, and the promise settlement. -/
structure ScanState where
  listenersOn : Bool
  stations : List Peripheral
  stopScanningIssued : Bool
  outcome : Option (Except (List Nat) (List Peripheral))

/-- Initial `scan` state: listeners registered, no stations, pending. -/
def scanInit : ScanState :=
  { listenersOn := true, stations := [], stopScanningIssued := false, outcome := none }

/-- One event of `scan` (weather-station.js:50-90). The discover handler
strips colons from the peripheral address, applies the allow-list and
pushes a station; the scanStop handler removes all listeners and resolves
with the stations; the stateChange handler, on any state other than
`'poweredOn'`, removes all listeners, calls `noble.stopScanning()` and
rejects with `'State changed to ' + state`. -/
def scanStep (addresses : Option (List (List Nat))) (s : ScanState) :
    ScanEvent → ScanState
  | .discover p =>
      if s.listenersOn = true then
        if allowListRejects addresses (stripColons p.address) then s
        else { s with stations := s.stations ++ [p] }
      else s
  | .scanStop =>
      if s.listenersOn = true then
        { s with listenersOn := false,
                 outcome := settleWith s.outcome (.ok s.stations) }
      else s
  | .stateChange st =>
      if s.listenersOn = true ∧ st ≠ poweredOnState then
        { s with listenersOn := false, stopScanningIssued := true,
                 outcome := settleWith s.outcome (.error (stateChangedMessage st)) }
      else s

/-- Run one `scan` session over an event trace. -/
def scanRun (addresses : Option (List (List Nat))) (events : List ScanEvent) :
    ScanState :=
  events.foldl (scanStep addresses) scanInit

/-- State of one `scanForReadings` session (weather-station.js:95-151)
after `startScanning` succeeded. `handedPayloads` logs each `data.slice(8)`
passed on to `Reading.parseReadings`. -/
structure ReadScanState where
  listenersOn : Bool
  handedPayloads : List (List Nat)
  stopScanningIssued : Bool
  outcome : Option (Except (List Nat) Unit)

/-- Initial `scanForReadings` state. -/
def readScanInit : ReadScanState :=
  { listenersOn := true, handedPayloads := [], stopScanningIssued := false,
    outcome := none }

/-- One event of `scanForReadings` (weather-station.js:98-148): the
discover handler is `scanForReadingsHandler`; scanStop resolves with no
value; a stateChange away from `'poweredOn'` force-stops and rejects. -/
def readScanStep (addresses : Option (List (List Nat))) (s : ReadScanState) :
    ScanEvent → ReadScanState
  | .discover p =>
      if s.listenersOn = true then
        match scanForReadingsHandler p.manufacturerData p.address addresses with
        | none => s
        | some payload => { s with handedPayloads := s.handedPayloads ++ [payload] }
      else s
  | .scanStop =>
      if s.listenersOn = true then
        { s with listenersOn := false, outcome := settleWith s.outcome (.ok ()) }
      else s
  | .stateChange st =>
      if s.listenersOn = true ∧ st ≠ poweredOnState then
        { s with listenersOn := false, stopScanningIssued := true,
                 outcome := settleWith s.outcome (.error (stateChangedMessage st)) }
      else s

/-- Run one `scanForReadings` session over an event trace. -/
def readScanRun (addresses : Option (List (List Nat)))
    (events : List ScanEvent) : ReadScanState :=
  events.foldl (readScanStep addresses) readScanInit

/-- Modelled from the spec: `Record` (`./record`) is not under `src/`; the
spec describes the ReadingSet as a mapping from reading name to the
most-recently-seen reading for that name (insert/overwrite keyed by name,
last-seen-wins), whose `size` is the number of distinct names present.
A record is a list of (name, value) entries with pairwise distinct names,
so `size` is the list length. Reading values are opaque to `getRecord`;
they are carried as `Int` tokens. -/
def recordAdd (record : List (List Nat × Int)) (n : List Nat) (v : Int) :
    List (List Nat × Int) :=
  if record.any (fun p => p.1 == n) then
    record.map (fun p => if p.1 == n then (n, v) else p)
  else record ++ [(n, v)]

/-- Events observed by one `getRecord` call (weather-station.js:161-194):
a decoded reading delivered to `readingHandler`, the `readTimeout` timer
firing, the `scanStop` event (which settles the inner `scanForReadings`
promise), or an adapter `stateChange`. -/
inductive RecEvent where
  | reading (n : List Nat) (v : Int)
  | deadline
  | scanStop
  | stateChange (st : List Nat)
deriving DecidableEq

/-- State of one `getRecord` call, with the inner `scanForReadings`
listener lifecycle inlined: the record built so far, whether the timer is
still armed, whether `WeatherStation.stopScan()` has been invoked, and the
settlement of the `getRecord` promise. -/
structure RecState where
  listenersOn : Bool
  record : List (List Nat × Int)
  timeoutActive : Bool
  stopScanIssued : Bool
  outcome : Option (Except (List Nat) (List (List Nat × Int)))

/-- Initial `getRecord` state: timer armed, empty record, scan listeners
registered, promise pending. -/
def recInit : RecState :=
  { listenersOn := true, record := [], timeoutActive := true,
    stopScanIssued := false, outcome := none }

/-- One event of `getRecord` (weather-station.js:161-194). A delivered
reading whose name is in `includedReadings` is added to the record; if the
record size then reaches `includedReadings.length`, the timer is cleared
and `stopScan()` is invoked. The timer firing logs and invokes
`stopScan()`. The `scanStop` event resolves the inner scan, whose `.then`
clears the timer and resolves `getRecord` with the record. A `stateChange`
away from `'poweredOn'` rejects the inner scan, whose `.catch` clears the
timer and rejects `getRecord` with the same error. -/
def recStep (includedReadings : List (List Nat)) (s : RecState) :
    RecEvent → RecState
  | .reading n v =>
      if s.listenersOn = true then
        if n ∈ includedReadings then
          if includedReadings.length ≤ (recordAdd s.record n v).length then
            { s with record := recordAdd s.record n v,
                     timeoutActive := false, stopScanIssued := true }
          else { s with record := recordAdd s.record n v }
        else s
      else s
  | .deadline =>
      if s.timeoutActive = true then
        { s with timeoutActive := false, stopScanIssued := true }
      else s
  | .scanStop =>
      if s.listenersOn = true then
        { s with listenersOn := false, timeoutActive := false,
                 outcome := settleWith s.outcome (.ok s.record) }
      else s
  | .stateChange st =>
      if s.listenersOn = true ∧ st ≠ poweredOnState then
        { s with listenersOn := false, stopScanIssued := true, timeoutActive := false,
                 outcome := settleWith s.outcome (.error (stateChangedMessage st)) }
      else s

/-- Run one `getRecord` call over an event trace. -/
def recRun (includedReadings : List (List Nat)) (events : List RecEvent) :
    RecState :=
  events.foldl (recStep includedReadings) recInit

/-- Wraps the provenance of a `getRecord` rejection: the error carries a
state-change message for some non-powered-on state present in the trace. -/
def errorFromStateChange (events : List RecEvent) (e : List Nat) : Prop :=
  ∃ st, RecEvent.stateChange st ∈ events ∧ st ≠ poweredOnState
    ∧ e = stateChangedMessage st

/-- First initialization payload (weather-station.js:300). -/
def initCommand1 : List Nat := [0x06, 0x06, 0x30, 0x30, 0x30, 0x30, 0x30, 0x30]

/-- Second initialization payload (weather-station.js:302). -/
def initCommand2 : List Nat := [0x05, 0x06, 0x30, 0x30, 0x30, 0x30, 0x30, 0x30]

/-- Third initialization payload (weather-station.js:304). -/
def initCommand3 : List Nat := [0xaa, 0x02, 0x33, 0xff]

/-- The shared expected response code of the three initialization
commands (weather-station.js:300-304). -/
def initResponseCode : Nat := 0x80

/-- The rejection message of the unexpected-disconnect handlers
(weather-station.js:234, 270, 295). -/
def disconnectedMessage : List Nat :=
  codeUnits "Peripheral disconnected unexpectedly"

/-- Events observed by one `_initialize` call: the settlement of the i-th
`writeSetting` promise (i ∈ 1..3), or a `disconnect` event from the
peripheral. -/
inductive InitEvent where
  | settled (i : Nat) (r : Except (List Nat) Unit)
  | disconnect

/-- One entry of the observable `_initialize` timeline: a settings write
being issued, or an external event being delivered. -/
inductive InitObs where
  | writeIssued (cmd : List Nat)
  | happened (e : InitEvent)

/-- Embeds the order of observable actions of `_initialize`
(weather-station.js:292-314). The promise executor runs synchronously and
evaluates `this.writeSetting(...)` for ALL THREE payloads during that
synchronous run: the second and third calls appear as `.then(this.writeSetting(...))`,
i.e. the argument is an already-invoked call whose resulting promise is
passed to `.then` as a value (not as a callback), so each `writeSetting`
(and hence each characteristic write) is issued immediately, before any
external event can be delivered. -/
def initializeTimeline (events : List InitEvent) : List InitObs :=
  [.writeIssued initCommand1, .writeIssued initCommand2, .writeIssued initCommand3]
    ++ events.map InitObs.happened

/-- Embeds the settlement of the `_initialize` promise
(weather-station.js:292-314). Because `.then` receives promises (values)
rather than callbacks for commands 2 and 3, it treats them as identity
pass-throughs: the chain settles exactly as command 1's `writeSetting`
promise settles. The `disconnect` handler rejects if it fires first; the
first relevant event in the trace wins (settlements of commands 2 and 3
are ignored by the chain). -/
def initializeOutcome : List InitEvent → Option (Except (List Nat) Unit)
  | [] => none
  | .disconnect :: _ => some (.error disconnectedMessage)
  | .settled 1 r :: _ => some r
  | _ :: rest => initializeOutcome rest

/-- Embeds the `connect` promise chain (weather-station.js:204-229): the
four phases run in sequence and the first failure settles the whole
operation; on success of the first three phases the result is
`_initialize`'s settlement. -/
def connectOutcome (connectR charsR subR : Except (List Nat) Unit)
    (initEvents : List InitEvent) : Option (Except (List Nat) Unit) :=
  match connectR with
  | .error e => some (.error e)
  | .ok _ =>
    match charsR with
    | .error e => some (.error e)
    | .ok _ =>
      match subR with
      | .error e => some (.error e)
      | .ok _ => initializeOutcome initEvents

/-- The relation "these two address strings differ only in letter case
and/or colon separators": corresponding non-colon code units agree up to
ASCII lowercasing, and colons (code unit 58) may be inserted or dropped
freely on either side. -/
inductive CaseColonEquiv : List Nat → List Nat → Prop
  | nil : CaseColonEquiv [] []
  | cons {a b : Nat} {s t : List Nat} :
      jsToLowerCode a = jsToLowerCode b → CaseColonEquiv s t →
      CaseColonEquiv (a :: s) (b :: t)
  | colonL {s t : List Nat} : CaseColonEquiv s t → CaseColonEquiv (58 :: s) t
  | colonR {s t : List Nat} : CaseColonEquiv s t → CaseColonEquiv s (58 :: t)

/-! Helper lemmas. -/

/-- A settlement slot is never pending after a settlement attempt. -/
theorem settleWith_ne_none {α : Type} (cur : Option α) (v : α) :
    settleWith cur v ≠ none := by
  cases cur <;> simp [settleWith]

/-- Once a `_write` call has settled and removed its listener, no further
event changes its state. -/
theorem chStep_absorbed (rc : Nat) (x : Except (List Nat) (List Nat))
    (e : ChEvent) :
    chStep rc { listenerOn := false, outcome := some x } e
      = { listenerOn := false, outcome := some x } := by
  cases e with
  | notif p isN => simp [chStep]
  | writeDone err =>
      cases err with
      | none => rfl
      | some msg => simp [chStep, settleWith]

/-- Folding any event trace from an absorbed `_write` state is a no-op. -/
theorem chRun_absorbed (rc : Nat) (x : Except (List Nat) (List Nat))
    (events : List ChEvent) :
    List.foldl (chStep rc) { listenerOn := false, outcome := some x } events
      = { listenerOn := false, outcome := some x } := by
  induction events with
  | nil => rfl
  | cons e rest ih => rw [List.foldl_cons, chStep_absorbed]; exact ih

/-! Claim theorems. -/

/-- Claim C1 (code bug): evaluation at a failing input. Contrary to the
claim, `_initialize` issues all three settings writes synchronously before
any command's response can be received (`.then` is given already-invoked
`writeSetting` calls, i.e. promises, not callbacks), and its settlement
tracks only command 1: here command 2's promise rejects yet the whole
initialization resolves successfully. -/
theorem claim1_initialize_eval :
    initializeTimeline
        [.settled 1 (.ok ()), .settled 2 (.error (codeUnits "write failed"))]
      = [.writeIssued initCommand1, .writeIssued initCommand2,
         .writeIssued initCommand3,
         .happened (.settled 1 (.ok ())),
         .happened (.settled 2 (.error (codeUnits "write failed")))]
    ∧ initializeOutcome
        [.settled 1 (.ok ()), .settled 2 (.error (codeUnits "write failed"))]
      = some (.ok ()) :=
  ⟨rfl, rfl⟩

/-- Claim C2 (code bug): evaluation at a failing input. A disconnect
delivered after command 1's response but before commands 2 and 3 settle —
i.e. before the initialization sequence completes — does NOT fail the
connect operation: the chain has already resolved from command 1 alone.
(A disconnect delivered before command 1 settles does reject, second
conjunct.) -/
theorem claim2_connect_disconnect_eval :
    connectOutcome (.ok ()) (.ok ()) (.ok ())
        [.settled 1 (.ok ()), .disconnect, .settled 2 (.ok ()),
         .settled 3 (.ok ())]
      = some (.ok ())
    ∧ connectOutcome (.ok ()) (.ok ()) (.ok ())
        [.disconnect, .settled 1 (.ok ())]
      = some (.error disconnectedMessage) :=
  ⟨rfl, rfl⟩

/-- Claim C3: if the transport write fails, the `_write` promise rejects
with the write error and the pending `data` listener is removed, so any
later events — in particular a notification carrying the expected response
code — cannot resolve the operation. -/
theorem claim3_write_failure_rejects (rc : Nat) (e : List Nat)
    (pre post : List ChEvent)
    (hpend : (chRun rc pre).outcome = none) :
    (chRun rc (pre ++ ChEvent.writeDone (some e) :: post)).outcome
        = some (.error e)
    ∧ (chRun rc (pre ++ ChEvent.writeDone (some e) :: post)).listenerOn
        = false := by
  have h1 : chRun rc (pre ++ ChEvent.writeDone (some e) :: post)
      = List.foldl (chStep rc)
          (chStep rc (chRun rc pre) (ChEvent.writeDone (some e))) post := by
    rw [chRun, List.foldl_append, List.foldl_cons]
    rfl
  have h2 : chStep rc (chRun rc pre) (ChEvent.writeDone (some e))
      = { listenerOn := false, outcome := some (.error e) } := by
    show ({ listenerOn := false,
            outcome := settleWith (chRun rc pre).outcome (.error e) } : ChState)
      = _
    rw [hpend]
    rfl
  rw [h1, h2, chRun_absorbed]
  exact ⟨rfl, rfl⟩

/-- Witness for C3: with the expected code 128, a failed write rejects with
the write error even though a correctly-coded notification `[128, 7]`
arrives afterwards, and the listener is gone. -/
theorem claim3_write_failure_rejects_witness :
    (chRun 128 ([] ++ ChEvent.writeDone (some (codeUnits "write failed"))
        :: [ChEvent.notif [128, 7] true])).outcome
        = some (.error (codeUnits "write failed"))
    ∧ (chRun 128 ([] ++ ChEvent.writeDone (some (codeUnits "write failed"))
        :: [ChEvent.notif [128, 7] true])).listenerOn
        = false :=
  claim3_write_failure_rejects 128 (codeUnits "write failed") []
    [ChEvent.notif [128, 7] true] rfl

/-- Claim C9: over any trace of received `data` events, the `_write`
promise resolves exactly with the payload of the first event that is
flagged as a notification and whose byte 0 equals the expected response
code (full payload, first match wins), and the listener is removed iff
such a match occurred. -/
theorem claim9_response_matching (rc : Nat) (evs : List (List Nat × Bool)) :
    (chRun rc (evs.map fun p => ChEvent.notif p.1 p.2)).outcome
        = Option.map (fun p => Except.ok p.1) (evs.find? (chNotifMatches rc))
    ∧ (chRun rc (evs.map fun p => ChEvent.notif p.1 p.2)).listenerOn
        = (evs.find? (chNotifMatches rc)).isNone := by
  induction evs with
  | nil => exact ⟨rfl, rfl⟩
  | cons p rest ih =>
      by_cases h : chNotifMatches rc p = true
      · have hm : p.2 = true ∧ p.1.head? = some rc := by
          simpa [chNotifMatches, Bool.and_eq_true] using h
        have hstep : chStep rc chInit (ChEvent.notif p.1 p.2)
            = { listenerOn := false, outcome := some (.ok p.1) } := by
          simp [chStep, chInit, settleWith, hm.1, hm.2]
        constructor
        · rw [chRun, List.map_cons, List.foldl_cons, hstep, chRun_absorbed,
            List.find?_cons_of_pos _ h]
          rfl
        · rw [chRun, List.map_cons, List.foldl_cons, hstep, chRun_absorbed,
            List.find?_cons_of_pos _ h]
          rfl
      · have hstep : chStep rc chInit (ChEvent.notif p.1 p.2) = chInit := by
          have hcond : ¬(chInit.listenerOn = true ∧ p.2 = true
              ∧ p.1.head? = some rc) := by
            simp only [chNotifMatches, Bool.and_eq_true, beq_iff_eq] at h
            intro hc
            exact h ⟨hc.2.1, hc.2.2⟩
          simp [chStep, hcond]
        constructor
        · rw [chRun, List.map_cons, List.foldl_cons, hstep,
            List.find?_cons_of_neg _ h]
          exact ih.1
        · rw [chRun, List.map_cons, List.foldl_cons, hstep,
            List.find?_cons_of_neg _ h]
          exact ih.2

/-- Claim C10: an empty allow-list array is normalized to a falsy value
(`none`), so the allow-list guard never rejects and `scanForReadings` —
hence `getRecord`, which passes `getNormalizedAddresses(addresses)` down —
considers readings from every device. -/
theorem claim10_empty_allowlist :
    getNormalizedAddresses (some []) = none
    ∧ (∀ a : List Nat,
        allowListRejects (getNormalizedAddresses (some [])) a = false)
    ∧ (∀ data paddr : List Nat,
        scanForReadingsHandler data paddr (getNormalizedAddresses (some []))
          = scanForReadingsHandler data paddr none) :=
  ⟨rfl, fun _ => rfl, fun _ _ => rfl⟩

/-- Counterexample to C6 as stated: for a source device whose advertised
address is empty, the embedded self-address check is skipped entirely
(`address && ...` is falsy), so a payload whose bytes [2,8) rendered as
lowercase hex (here `"1"`) differ from the device's normalized address
(here the empty string) is still handed to the reading decoder, instead of
yielding an empty reading sequence as the claim requires. -/
theorem claim6_counterexample :
    natToHex (readUIntLE6 [0x42, 0x48, 1, 0, 0, 0, 0, 0, 0x99] 2)
        ≠ normalizeAddress []
    ∧ scanForReadingsHandler [0x42, 0x48, 1, 0, 0, 0, 0, 0, 0x99] [] none
        = some [0x99] := by
  constructor
  · decide
  · rfl

/-- Counterexample to C7 as stated: `"aa-bb"` and `"aa:bb"` differ only in
separator punctuation, yet they do not normalize to the same string —
normalization removes only colons, not other separators. -/
theorem claim7_counterexample :
    normalizeAddress (codeUnits "aa-bb") ≠ normalizeAddress (codeUnits "aa:bb") := by
  decide

/-- Claim C6 (amended): complete characterization of the discover-handler
filter of `scanForReadings`. A payload is handed (from offset 8) to the
reading decoder iff it is at least 9 bytes long, its first two bytes read
as little-endian 16-bit equal the manufacturer identifier, its bytes [2,8)
rendered as lowercase hex equal the source address with colons removed —
this self-address check being skipped when that colon-stripped address is
empty — and the address allow-list, when present, contains the
colon-stripped address; otherwise the handler yields no readings. -/
theorem claim6_advertisement_filter (data paddr : List Nat)
    (addresses : Option (List (List Nat))) :
    scanForReadingsHandler data paddr addresses
      = if 9 ≤ data.length ∧ readUInt16LE data 0 = COMPANY_ID
            ∧ (stripColons paddr = []
                ∨ natToHex (readUIntLE6 data 2) = stripColons paddr)
            ∧ allowListRejects addresses (stripColons paddr) = false
        then some (data.drop 8) else none := by
  unfold scanForReadingsHandler
  by_cases hlen : data.length < 9 ∨ readUInt16LE data 0 ≠ COMPANY_ID
  · rw [if_pos hlen, if_neg]
    rintro ⟨h9, hcid, -, -⟩
    rcases hlen with h | h
    · omega
    · exact h hcid
  · rw [if_neg hlen]
    push_neg at hlen
    by_cases hself : stripColons paddr ≠ []
        ∧ natToHex (readUIntLE6 data 2) ≠ stripColons paddr
    · rw [if_pos hself, if_neg]
      rintro ⟨-, -, hor, -⟩
      rcases hor with h | h
      · exact hself.1 h
      · exact hself.2 h
    · push_neg at hself
      rw [if_neg]
      · by_cases hallow : allowListRejects addresses (stripColons paddr) = true
        · rw [if_pos hallow, if_neg]
          rintro ⟨-, -, -, hfalse⟩
          rw [hallow] at hfalse
          exact Bool.true_eq_false.mp hfalse
        · rw [if_neg hallow, if_pos]
          refine ⟨hlen.1, hlen.2, ?_, by simpa using hallow⟩
          by_cases hemp : stripColons paddr = []
          · exact Or.inl hemp
          · exact Or.inr (hself hemp)
      · rintro ⟨hne, hneq⟩
        exact hneq (hself hne)

/-- One lowercasing step is idempotent on a code unit. -/
theorem jsToLowerCode_idem (u : Nat) :
    jsToLowerCode (jsToLowerCode u) = jsToLowerCode u := by
  unfold jsToLowerCode
  split_ifs <;> omega

/-- Lowercasing maps no code unit onto the colon except the colon itself. -/
theorem jsToLowerCode_eq_58 (u : Nat) : jsToLowerCode u = 58 ↔ u = 58 := by
  unfold jsToLowerCode
  split_ifs <;> omega

/-- Unfolding of normalization on a cons cell. -/
theorem normalizeAddress_cons (u : Nat) (s : List Nat) :
    normalizeAddress (u :: s)
      = if jsToLowerCode u = 58 then normalizeAddress s
        else jsToLowerCode u :: normalizeAddress s := by
  by_cases h : jsToLowerCode u = 58 <;>
    simp [normalizeAddress, jsToLower, stripColons, List.filter_cons, h]

/-- Normalization is idempotent. -/
theorem normalizeAddress_idem (a : List Nat) :
    normalizeAddress (normalizeAddress a) = normalizeAddress a := by
  induction a with
  | nil => rfl
  | cons u s ih =>
      rw [normalizeAddress_cons]
      by_cases h : jsToLowerCode u = 58
      · rw [if_pos h]
        exact ih
      · rw [if_neg h, normalizeAddress_cons, jsToLowerCode_idem]
        rw [if_neg h, ih]

/-- Addresses differing only in letter case and/or colon separators
normalize to the same string. -/
theorem normalizeAddress_eq_of_equiv {a b : List Nat}
    (h : CaseColonEquiv a b) : normalizeAddress a = normalizeAddress b := by
  induction h with
  | nil => rfl
  | cons hlow _ ih => rw [normalizeAddress_cons, normalizeAddress_cons, hlow, ih]
  | colonL _ ih =>
      rw [normalizeAddress_cons, if_pos (by decide : jsToLowerCode 58 = 58)]
      exact ih
  | colonR _ ih =>
      rw [normalizeAddress_cons, if_pos (by decide : jsToLowerCode 58 = 58)]
      exact ih

/-- Allow-lists whose entries differ only in case and/or colons produce the
same normalized allow-list. -/
theorem getNormalizedAddresses_eq_of_equiv {s t : List (List Nat)}
    (h : List.Forall₂ CaseColonEquiv s t) :
    getNormalizedAddresses (some s) = getNormalizedAddresses (some t) := by
  have hmap : s.map normalizeAddress = t.map normalizeAddress := by
    induction h with
    | nil => rfl
    | cons hab _ ih =>
        rw [List.map_cons, List.map_cons, normalizeAddress_eq_of_equiv hab, ih]
  have hlen : s.length = t.length := h.length_eq
  show (if s.length > 0 then some (s.map normalizeAddress) else none)
      = (if t.length > 0 then some (t.map normalizeAddress) else none)
  rw [hlen, hmap]

/-- Claim C7 (amended): normalization is idempotent, and any two address
strings differing only in letter case and/or COLON separators normalize to
the same canonical string, hence entry-wise case/colon-equivalent
allow-lists normalize identically and filter identically in `scan`,
`scanForReadings` and `getRecord`. (Separators other than the colon are
not removed, per the counterexample.) -/
theorem claim7_normalization (a b : List Nat) (s t : List (List Nat))
    (hab : CaseColonEquiv a b) (hst : List.Forall₂ CaseColonEquiv s t) :
    normalizeAddress (normalizeAddress a) = normalizeAddress a
    ∧ normalizeAddress a = normalizeAddress b
    ∧ getNormalizedAddresses (some s) = getNormalizedAddresses (some t) :=
  ⟨normalizeAddress_idem a, normalizeAddress_eq_of_equiv hab,
   getNormalizedAddresses_eq_of_equiv hst⟩

/-- Witness for C7: `"A:b"` (code units [65, 58, 98]) and `"ab"`
(code units [97, 98]) are case/colon-equivalent; normalization collapses
them to the same string and the singleton allow-lists normalize equally. -/
theorem claim7_normalization_witness :
    normalizeAddress (normalizeAddress [65, 58, 98])
        = normalizeAddress [65, 58, 98]
    ∧ normalizeAddress [65, 58, 98] = normalizeAddress [97, 98]
    ∧ getNormalizedAddresses (some [[65, 58, 98]])
        = getNormalizedAddresses (some [[97, 98]]) :=
  claim7_normalization [65, 58, 98] [97, 98] [[65, 58, 98]] [[97, 98]]
    (.cons (by decide) (.colonL (.cons (by decide) .nil)))
    (.cons (.cons (by decide) (.colonL (.cons (by decide) .nil))) .nil)

/-- Appending one event to a `scan` trace steps the final state once. -/
theorem scanRun_snoc (addresses : Option (List (List Nat)))
    (pre : List ScanEvent) (e : ScanEvent) :
    scanRun addresses (pre ++ [e])
      = scanStep addresses (scanRun addresses pre) e := by
  rw [scanRun, List.foldl_append, List.foldl_cons, List.foldl_nil]
  rfl

/-- Appending one event to a `scanForReadings` trace steps the final state
once. -/
theorem readScanRun_snoc (addresses : Option (List (List Nat)))
    (pre : List ScanEvent) (e : ScanEvent) :
    readScanRun addresses (pre ++ [e])
      = readScanStep addresses (readScanRun addresses pre) e := by
  rw [readScanRun, List.foldl_append, List.foldl_cons, List.foldl_nil]
  rfl

/-- A pending `scan` session still has its listeners registered: listener
removal and promise settlement happen together on every exit path. -/
theorem scanRun_listenersOn (addresses : Option (List (List Nat)))
    (events : List ScanEvent) :
    (scanRun addresses events).outcome = none →
    (scanRun addresses events).listenersOn = true := by
  suffices h : ∀ s : ScanState, (s.outcome = none → s.listenersOn = true) →
      ((List.foldl (scanStep addresses) s events).outcome = none →
        (List.foldl (scanStep addresses) s events).listenersOn = true) from
    h scanInit (fun _ => rfl)
  induction events with
  | nil => exact fun s hs => hs
  | cons e rest ih =>
      intro s hs
      rw [List.foldl_cons]
      apply ih
      cases e with
      | discover p =>
          by_cases hl : s.listenersOn = true
          · by_cases hr : allowListRejects addresses (stripColons p.address) = true
            · simp [scanStep, hl, hr]
            · simp [scanStep, hl, hr]
          · simpa [scanStep, hl] using hs
      | scanStop =>
          by_cases hl : s.listenersOn = true
          · intro hout
            exact absurd (by simpa [scanStep, hl] using hout)
              (settleWith_ne_none s.outcome (.ok s.stations))
          · simpa [scanStep, hl] using hs
      | stateChange st =>
          by_cases hc : s.listenersOn = true ∧ st ≠ poweredOnState
          · intro hout
            exact absurd (by simpa [scanStep, hc] using hout)
              (settleWith_ne_none s.outcome (.error (stateChangedMessage st)))
          · simpa [scanStep, hc] using hs

/-- A pending `scanForReadings` session still has its listeners
registered. -/
theorem readScanRun_listenersOn (addresses : Option (List (List Nat)))
    (events : List ScanEvent) :
    (readScanRun addresses events).outcome = none →
    (readScanRun addresses events).listenersOn = true := by
  suffices h : ∀ s : ReadScanState, (s.outcome = none → s.listenersOn = true) →
      ((List.foldl (readScanStep addresses) s events).outcome = none →
        (List.foldl (readScanStep addresses) s events).listenersOn = true) from
    h readScanInit (fun _ => rfl)
  induction events with
  | nil => exact fun s hs => hs
  | cons e rest ih =>
      intro s hs
      rw [List.foldl_cons]
      apply ih
      cases e with
      | discover p =>
          by_cases hl : s.listenersOn = true
          · cases hpar : scanForReadingsHandler p.manufacturerData p.address addresses with
            | none => simp [readScanStep, hl, hpar]
            | some payload => simp [readScanStep, hl, hpar]
          · simpa [readScanStep, hl] using hs
      | scanStop =>
          by_cases hl : s.listenersOn = true
          · intro hout
            exact absurd (by simpa [readScanStep, hl] using hout)
              (settleWith_ne_none s.outcome (.ok ()))
          · simpa [readScanStep, hl] using hs
      | stateChange st =>
          by_cases hc : s.listenersOn = true ∧ st ≠ poweredOnState
          · intro hout
            exact absurd (by simpa [readScanStep, hc] using hout)
              (settleWith_ne_none s.outcome (.error (stateChangedMessage st)))
          · simpa [readScanStep, hc] using hs

/-- Claim C8: for an active scan session of either mode, an adapter state
change away from `'poweredOn'` force-stops the scan (stopScanning is
issued, listeners are removed) and rejects the scan promise with the
state-change error, whereas the `scanStop` event following an explicit
stop resolves successfully — with the accumulated stations in connectable
mode and with no value in continuous-reading mode. -/
theorem claim8_scan_termination (addresses : Option (List (List Nat)))
    (pre : List ScanEvent) (st : List Nat)
    (hst : st ≠ poweredOnState)
    (hpend1 : (scanRun addresses pre).outcome = none)
    (hpend2 : (readScanRun addresses pre).outcome = none) :
    (scanRun addresses (pre ++ [ScanEvent.stateChange st])).outcome
        = some (.error (stateChangedMessage st))
    ∧ (scanRun addresses (pre ++ [ScanEvent.stateChange st])).stopScanningIssued
        = true
    ∧ (scanRun addresses (pre ++ [ScanEvent.stateChange st])).listenersOn = false
    ∧ (scanRun addresses (pre ++ [ScanEvent.scanStop])).outcome
        = some (.ok (scanRun addresses pre).stations)
    ∧ (readScanRun addresses (pre ++ [ScanEvent.stateChange st])).outcome
        = some (.error (stateChangedMessage st))
    ∧ (readScanRun addresses (pre ++ [ScanEvent.stateChange st])).stopScanningIssued
        = true
    ∧ (readScanRun addresses (pre ++ [ScanEvent.stateChange st])).listenersOn
        = false
    ∧ (readScanRun addresses (pre ++ [ScanEvent.scanStop])).outcome
        = some (.ok ()) := by
  have hl1 := scanRun_listenersOn addresses pre hpend1
  have hl2 := readScanRun_listenersOn addresses pre hpend2
  have h1 : scanStep addresses (scanRun addresses pre) (ScanEvent.stateChange st)
      = { listenersOn := false, stations := (scanRun addresses pre).stations,
          stopScanningIssued := true,
          outcome := some (.error (stateChangedMessage st)) } := by
    simp only [scanStep]
    rw [if_pos ⟨hl1, hst⟩, hpend1]
    rfl
  have h2 : scanStep addresses (scanRun addresses pre) ScanEvent.scanStop
      = { listenersOn := false, stations := (scanRun addresses pre).stations,
          stopScanningIssued := (scanRun addresses pre).stopScanningIssued,
          outcome := some (.ok (scanRun addresses pre).stations) } := by
    simp only [scanStep]
    rw [if_pos hl1, hpend1]
    rfl
  have h3 : readScanStep addresses (readScanRun addresses pre)
        (ScanEvent.stateChange st)
      = { listenersOn := false,
          handedPayloads := (readScanRun addresses pre).handedPayloads,
          stopScanningIssued := true,
          outcome := some (.error (stateChangedMessage st)) } := by
    simp only [readScanStep]
    rw [if_pos ⟨hl2, hst⟩, hpend2]
    rfl
  have h4 : readScanStep addresses (readScanRun addresses pre) ScanEvent.scanStop
      = { listenersOn := false,
          handedPayloads := (readScanRun addresses pre).handedPayloads,
          stopScanningIssued := (readScanRun addresses pre).stopScanningIssued,
          outcome := some (.ok ()) } := by
    simp only [readScanStep]
    rw [if_pos hl2, hpend2]
    rfl
  rw [scanRun_snoc, scanRun_snoc, readScanRun_snoc, readScanRun_snoc, h1, h2,
    h3, h4]
  exact ⟨rfl, rfl, rfl, rfl, rfl, rfl, rfl, rfl⟩

/-- Witness for C8: from a session that has discovered one station, a
state change to `'poweredOff'` rejects both modes with the state-change
error and force-stops, while an explicit stop resolves with the station
(connectable mode) and with no value (continuous mode). -/
theorem claim8_scan_termination_witness :
    (scanRun none ([ScanEvent.discover ⟨codeUnits "aa:bb", []⟩]
          ++ [ScanEvent.stateChange (codeUnits "poweredOff")])).outcome
        = some (.error (stateChangedMessage (codeUnits "poweredOff")))
    ∧ (scanRun none ([ScanEvent.discover ⟨codeUnits "aa:bb", []⟩]
          ++ [ScanEvent.stateChange (codeUnits "poweredOff")])).stopScanningIssued
        = true
    ∧ (scanRun none ([ScanEvent.discover ⟨codeUnits "aa:bb", []⟩]
          ++ [ScanEvent.stateChange (codeUnits "poweredOff")])).listenersOn
        = false
    ∧ (scanRun none ([ScanEvent.discover ⟨codeUnits "aa:bb", []⟩]
          ++ [ScanEvent.scanStop])).outcome
        = some (.ok (scanRun none [ScanEvent.discover ⟨codeUnits "aa:bb", []⟩]).stations)
    ∧ (readScanRun none ([ScanEvent.discover ⟨codeUnits "aa:bb", []⟩]
          ++ [ScanEvent.stateChange (codeUnits "poweredOff")])).outcome
        = some (.error (stateChangedMessage (codeUnits "poweredOff")))
    ∧ (readScanRun none ([ScanEvent.discover ⟨codeUnits "aa:bb", []⟩]
          ++ [ScanEvent.stateChange (codeUnits "poweredOff")])).stopScanningIssued
        = true
    ∧ (readScanRun none ([ScanEvent.discover ⟨codeUnits "aa:bb", []⟩]
          ++ [ScanEvent.stateChange (codeUnits "poweredOff")])).listenersOn
        = false
    ∧ (readScanRun none ([ScanEvent.discover ⟨codeUnits "aa:bb", []⟩]
          ++ [ScanEvent.scanStop])).outcome
        = some (.ok ()) :=
  claim8_scan_termination none [ScanEvent.discover ⟨codeUnits "aa:bb", []⟩]
    (codeUnits "poweredOff") (by decide) rfl rfl

/-- Appending one event to a `getRecord` trace steps the final state
once. -/
theorem recRun_snoc (incl : List (List Nat)) (pre : List RecEvent)
    (e : RecEvent) :
    recRun incl (pre ++ [e]) = recStep incl (recRun incl pre) e := by
  rw [recRun, List.foldl_append, List.foldl_cons, List.foldl_nil]
  rfl

/-- A pending `getRecord` call still has its scan listeners registered. -/
theorem recRun_listenersOn (incl : List (List Nat)) (events : List RecEvent) :
    (recRun incl events).outcome = none →
    (recRun incl events).listenersOn = true := by
  suffices h : ∀ s : RecState, (s.outcome = none → s.listenersOn = true) →
      ((List.foldl (recStep incl) s events).outcome = none →
        (List.foldl (recStep incl) s events).listenersOn = true) from
    h recInit (fun _ => rfl)
  induction events with
  | nil => exact fun s hs => hs
  | cons e rest ih =>
      intro s hs
      rw [List.foldl_cons]
      apply ih
      cases e with
      | reading n v =>
          by_cases hl : s.listenersOn = true
          · by_cases hm : n ∈ incl
            · by_cases hf : incl.length ≤ (recordAdd s.record n v).length
              · simp [recStep, hl, hm, hf]
              · simp [recStep, hl, hm, hf]
            · simp [recStep, hl, hm]
          · simpa [recStep, hl] using hs
      | deadline =>
          by_cases ht : s.timeoutActive = true
          · simpa [recStep, ht] using hs
          · simpa [recStep, ht] using hs
      | scanStop =>
          by_cases hl : s.listenersOn = true
          · intro hout
            exact absurd (by simpa [recStep, hl] using hout)
              (settleWith_ne_none s.outcome (.ok s.record))
          · simpa [recStep, hl] using hs
      | stateChange st =>
          by_cases hc : s.listenersOn = true ∧ st ≠ poweredOnState
          · intro hout
            exact absurd (by simpa [recStep, hc] using hout)
              (settleWith_ne_none s.outcome (.error (stateChangedMessage st)))
          · simpa [recStep, hc] using hs

/-- A rejected `getRecord` promise got its error from an adapter state
change away from `'poweredOn'`: neither readings, nor the deadline, nor a
clean scan stop ever write an error into the settlement slot. -/
theorem recRun_error_source (incl : List (List Nat)) (e : List Nat)
    (events : List RecEvent) :
    ∀ s : RecState,
      (List.foldl (recStep incl) s events).outcome = some (.error e) →
      s.outcome = some (.error e) ∨ errorFromStateChange events e := by
  induction events with
  | nil => exact fun s h => Or.inl h
  | cons ev rest ih =>
      intro s h
      rw [List.foldl_cons] at h
      rcases ih (recStep incl s ev) h with h1 | h1
      · cases ev with
        | reading n v =>
            left
            by_cases hl : s.listenersOn = true
            · by_cases hm : n ∈ incl
              · by_cases hf : incl.length ≤ (recordAdd s.record n v).length
                · simpa [recStep, hl, hm, hf] using h1
                · simpa [recStep, hl, hm, hf] using h1
              · simpa [recStep, hl, hm] using h1
            · simpa [recStep, hl] using h1
        | deadline =>
            left
            by_cases ht : s.timeoutActive = true
            · simpa [recStep, ht] using h1
            · simpa [recStep, ht] using h1
        | scanStop =>
            left
            by_cases hl : s.listenersOn = true
            · have h2 : settleWith s.outcome (Except.ok s.record)
                  = some (.error e) := by
                simpa [recStep, hl] using h1
              cases hcur : s.outcome with
              | none =>
                  rw [hcur] at h2
                  simp [settleWith] at h2
              | some w =>
                  rw [hcur] at h2
                  simpa [settleWith] using h2
            · simpa [recStep, hl] using h1
        | stateChange st =>
            by_cases hc : s.listenersOn = true ∧ st ≠ poweredOnState
            · have h2 : settleWith s.outcome
                    (Except.error (stateChangedMessage st))
                  = some (.error e) := by
                simpa [recStep, hc] using h1
              cases hcur : s.outcome with
              | none =>
                  right
                  rw [hcur] at h2
                  simp only [settleWith, Option.some.injEq,
                    Except.error.injEq] at h2
                  exact ⟨st, List.mem_cons_self _ _, hc.2, h2.symm⟩
              | some w =>
                  left
                  rw [hcur] at h2
                  simpa [settleWith] using h2
            · left
              simpa [recStep, hc] using h1
      · right
        obtain ⟨st, hmem, hne, he⟩ := h1
        exact ⟨st, List.mem_cons_of_mem _ hmem, hne, he⟩

/-- Inserting into a record either overwrites in place (same keys) or
appends the new name at the end. -/
theorem recordAdd_map_fst (record : List (List Nat × Int)) (n : List Nat)
    (v : Int) :
    (recordAdd record n v).map Prod.fst
      = if record.any (fun p => p.1 == n) then record.map Prod.fst
        else record.map Prod.fst ++ [n] := by
  unfold recordAdd
  by_cases h : record.any (fun p => p.1 == n) = true
  · rw [if_pos h, if_pos h, List.map_map]
    have hfun : (Prod.fst ∘ fun p : List Nat × Int =>
        if p.1 == n then (n, v) else p) = Prod.fst := by
      funext p
      by_cases hp : (p.1 == n) = true
      · simp only [Function.comp_apply, if_pos hp]
        exact (beq_iff_eq.mp hp).symm
      · simp only [Function.comp_apply, if_neg hp]
    rw [hfun]
  · rw [if_neg h, if_neg h, List.map_append]
    rfl

/-- The record names accumulated by `getRecord` are pairwise distinct and
all belong to the requested names, so the record size is the number of
distinct requested names present. -/
theorem recRun_record_keys (incl : List (List Nat)) (events : List RecEvent) :
    ((recRun incl events).record.map Prod.fst).Nodup
    ∧ ∀ k ∈ (recRun incl events).record.map Prod.fst, k ∈ incl := by
  suffices h : ∀ s : RecState,
      ((s.record.map Prod.fst).Nodup ∧ ∀ k ∈ s.record.map Prod.fst, k ∈ incl) →
      (((List.foldl (recStep incl) s events).record.map Prod.fst).Nodup
        ∧ ∀ k ∈ (List.foldl (recStep incl) s events).record.map Prod.fst,
            k ∈ incl) from
    h recInit ⟨List.nodup_nil, by simp [recInit]⟩
  induction events with
  | nil => exact fun s hs => hs
  | cons ev rest ih =>
      intro s hs
      rw [List.foldl_cons]
      apply ih
      cases ev with
      | reading n v =>
          by_cases hl : s.listenersOn = true
          · by_cases hm : n ∈ incl
            · have hkeys : ((recordAdd s.record n v).map Prod.fst).Nodup
                  ∧ ∀ k ∈ (recordAdd s.record n v).map Prod.fst, k ∈ incl := by
                rw [recordAdd_map_fst]
                by_cases ha : s.record.any (fun p => p.1 == n) = true
                · rw [if_pos ha]
                  exact hs
                · rw [if_neg ha]
                  have hn : n ∉ s.record.map Prod.fst := by
                    intro hmem
                    apply ha
                    rw [List.any_eq_true]
                    obtain ⟨p, hp, hpn⟩ := List.mem_map.mp hmem
                    exact ⟨p, hp, by rw [beq_iff_eq]; exact hpn⟩
                  constructor
                  · rw [List.nodup_append]
                    refine ⟨hs.1, List.nodup_singleton n, ?_⟩
                    intro a hak hasing
                    rw [List.mem_singleton] at hasing
                    subst hasing
                    exact hn hak
                  · intro k hk
                    rcases List.mem_append.mp hk with hk | hk
                    · exact hs.2 k hk
                    · rw [List.mem_singleton.mp hk]
                      exact hm
              by_cases hf : incl.length ≤ (recordAdd s.record n v).length
              · simp only [recStep, if_pos hl, if_pos hm, if_pos hf]
                exact hkeys
              · simp only [recStep, if_pos hl, if_pos hm, if_neg hf]
                exact hkeys
            · simpa [recStep, hl, hm] using hs
          · simpa [recStep, hl] using hs
      | deadline =>
          by_cases ht : s.timeoutActive = true
          · simpa [recStep, ht] using hs
          · simpa [recStep, ht] using hs
      | scanStop =>
          by_cases hl : s.listenersOn = true
          · simpa [recStep, hl] using hs
          · simpa [recStep, hl] using hs
      | stateChange st =>
          by_cases hc : s.listenersOn = true ∧ st ≠ poweredOnState
          · simpa [recStep, hc] using hs
          · simpa [recStep, hc] using hs

/-- A duplicate-free list of keys drawn from `incl` that is at least as
long as `incl` must contain every element of `incl`. -/
theorem keys_complete {keys incl : List (List Nat)} (hnd : keys.Nodup)
    (hsub : ∀ k ∈ keys, k ∈ incl) (hlen : incl.length ≤ keys.length) :
    incl ⊆ keys := by
  intro m hm
  have h1 : keys.toFinset ⊆ incl.toFinset := by
    intro x hx
    rw [List.mem_toFinset] at hx
    rw [List.mem_toFinset]
    exact hsub x hx
  have h2 : incl.toFinset.card ≤ keys.toFinset.card := by
    have ha : incl.toFinset.card ≤ incl.length := incl.toFinset_card_le
    have hb : keys.toFinset.card = keys.length := List.toFinset_card_of_nodup hnd
    omega
  have h3 : keys.toFinset = incl.toFinset := Finset.eq_of_subset_of_card_le h1 h2
  rw [← List.mem_toFinset, h3, List.mem_toFinset]
  exact hm

/-- Claim C4: the `getRecord` deadline is a soft bound. The timer firing
leaves the promise pending and the record untouched and merely requests
the scan stop; the ensuing `scanStop` event then resolves `getRecord`
successfully with the partial record collected so far; and any rejection
of `getRecord` carries an adapter state-change error — the deadline itself
is never an error. -/
theorem claim4_deadline_soft (incl : List (List Nat)) (pre evs : List RecEvent)
    (e : List Nat)
    (hpend : (recRun incl pre).outcome = none)
    (htime : (recRun incl pre).timeoutActive = true)
    (herr : (recRun incl evs).outcome = some (.error e)) :
    (recRun incl (pre ++ [RecEvent.deadline])).outcome = none
    ∧ (recRun incl (pre ++ [RecEvent.deadline])).record
        = (recRun incl pre).record
    ∧ (recRun incl (pre ++ [RecEvent.deadline])).stopScanIssued = true
    ∧ (recRun incl (pre ++ [RecEvent.deadline, RecEvent.scanStop])).outcome
        = some (.ok (recRun incl pre).record)
    ∧ errorFromStateChange evs e := by
  have hl := recRun_listenersOn incl pre hpend
  have hdead : recRun incl (pre ++ [RecEvent.deadline])
      = { listenersOn := (recRun incl pre).listenersOn,
          record := (recRun incl pre).record,
          timeoutActive := false, stopScanIssued := true,
          outcome := (recRun incl pre).outcome } := by
    rw [recRun_snoc]
    simp only [recStep]
    rw [if_pos htime]
  have hsplit : pre ++ [RecEvent.deadline, RecEvent.scanStop]
      = (pre ++ [RecEvent.deadline]) ++ [RecEvent.scanStop] := by
    simp
  have hstop : (recRun incl
        (pre ++ [RecEvent.deadline, RecEvent.scanStop])).outcome
      = some (.ok (recRun incl pre).record) := by
    rw [hsplit, recRun_snoc, hdead]
    simp only [recStep]
    rw [if_pos hl, hpend]
    rfl
  have hsrc : errorFromStateChange evs e := by
    rcases recRun_error_source incl e evs recInit herr with h | h
    · exact absurd h (by simp [recInit])
    · exact h
  refine ⟨?_, ?_, ?_, hstop, hsrc⟩
  · rw [hdead]
    exact hpend
  · rw [hdead]
  · rw [hdead]

/-- Witness for C4: requesting temperature and humidity, only temperature
arrives before the deadline; the deadline keeps the promise pending,
preserves the one-entry record and requests the stop, the scanStop event
resolves with that partial record, and a state change to `'poweredOff'`
is a source of rejection. -/
theorem claim4_deadline_soft_witness :
    (recRun [codeUnits "temperature", codeUnits "humidity"]
        ([RecEvent.reading (codeUnits "temperature") 21]
          ++ [RecEvent.deadline])).outcome = none
    ∧ (recRun [codeUnits "temperature", codeUnits "humidity"]
        ([RecEvent.reading (codeUnits "temperature") 21]
          ++ [RecEvent.deadline])).record
        = (recRun [codeUnits "temperature", codeUnits "humidity"]
            [RecEvent.reading (codeUnits "temperature") 21]).record
    ∧ (recRun [codeUnits "temperature", codeUnits "humidity"]
        ([RecEvent.reading (codeUnits "temperature") 21]
          ++ [RecEvent.deadline])).stopScanIssued = true
    ∧ (recRun [codeUnits "temperature", codeUnits "humidity"]
        ([RecEvent.reading (codeUnits "temperature") 21]
          ++ [RecEvent.deadline, RecEvent.scanStop])).outcome
        = some (.ok (recRun [codeUnits "temperature", codeUnits "humidity"]
            [RecEvent.reading (codeUnits "temperature") 21]).record)
    ∧ errorFromStateChange [RecEvent.stateChange (codeUnits "poweredOff")]
        (stateChangedMessage (codeUnits "poweredOff")) :=
  claim4_deadline_soft [codeUnits "temperature", codeUnits "humidity"]
    [RecEvent.reading (codeUnits "temperature") 21]
    [RecEvent.stateChange (codeUnits "poweredOff")]
    (stateChangedMessage (codeUnits "poweredOff")) rfl rfl rfl

/-- Claim C5: when an accepted reading brings the record size up to the
number of requested names, the timer is cleared and the scan stop is
requested immediately by that very insertion — a later deadline event is a
no-op — the record then contains every requested name, and the ensuing
`scanStop` event resolves `getRecord` with that complete record. -/
theorem claim5_complete_stop (incl : List (List Nat)) (pre : List RecEvent)
    (n : List Nat) (v : Int)
    (hpend : (recRun incl pre).outcome = none)
    (hname : n ∈ incl)
    (hfull : incl.length ≤ (recordAdd (recRun incl pre).record n v).length) :
    (recRun incl (pre ++ [RecEvent.reading n v])).timeoutActive = false
    ∧ (recRun incl (pre ++ [RecEvent.reading n v])).stopScanIssued = true
    ∧ incl ⊆ (recRun incl (pre ++ [RecEvent.reading n v])).record.map Prod.fst
    ∧ recRun incl (pre ++ [RecEvent.reading n v, RecEvent.deadline])
        = recRun incl (pre ++ [RecEvent.reading n v])
    ∧ (recRun incl (pre ++ [RecEvent.reading n v, RecEvent.scanStop])).outcome
        = some (.ok (recRun incl
            (pre ++ [RecEvent.reading n v])).record) := by
  have hl := recRun_listenersOn incl pre hpend
  have hstep : recRun incl (pre ++ [RecEvent.reading n v])
      = { listenersOn := (recRun incl pre).listenersOn,
          record := recordAdd (recRun incl pre).record n v,
          timeoutActive := false, stopScanIssued := true,
          outcome := (recRun incl pre).outcome } := by
    rw [recRun_snoc]
    simp only [recStep]
    rw [if_pos hl, if_pos hname, if_pos hfull]
  have hsub : incl ⊆ (recRun incl
      (pre ++ [RecEvent.reading n v])).record.map Prod.fst := by
    have hkeys := recRun_record_keys incl (pre ++ [RecEvent.reading n v])
    apply keys_complete hkeys.1 hkeys.2
    rw [List.length_map, hstep]
    exact hfull
  have ht2 : (recRun incl (pre ++ [RecEvent.reading n v])).timeoutActive
      = false := by
    rw [hstep]
  have hl2 : (recRun incl (pre ++ [RecEvent.reading n v])).listenersOn
      = true := by
    rw [hstep]
    exact hl
  have hp2 : (recRun incl (pre ++ [RecEvent.reading n v])).outcome = none := by
    rw [hstep]
    exact hpend
  have hdead : recRun incl (pre ++ [RecEvent.reading n v, RecEvent.deadline])
      = recRun incl (pre ++ [RecEvent.reading n v]) := by
    have hsplit : pre ++ [RecEvent.reading n v, RecEvent.deadline]
        = (pre ++ [RecEvent.reading n v]) ++ [RecEvent.deadline] := by
      simp
    rw [hsplit, recRun_snoc]
    simp only [recStep]
    rw [if_neg]
    rw [ht2]
    exact Bool.false_ne_true
  have hstop : (recRun incl
        (pre ++ [RecEvent.reading n v, RecEvent.scanStop])).outcome
      = some (.ok (recRun incl (pre ++ [RecEvent.reading n v])).record) := by
    have hsplit : pre ++ [RecEvent.reading n v, RecEvent.scanStop]
        = (pre ++ [RecEvent.reading n v]) ++ [RecEvent.scanStop] := by
      simp
    rw [hsplit, recRun_snoc]
    simp only [recStep]
    rw [if_pos hl2, hp2]
    rfl
  exact ⟨ht2, by rw [hstep], hsub, hdead, hstop⟩

/-- Witness for C5: with temperature already collected, the arrival of
humidity completes the record of the two requested names: the timer is
cleared, the stop is requested, both names are present, a deadline event
afterwards changes nothing, and the scanStop event resolves with the
complete record. -/
theorem claim5_complete_stop_witness :
    (recRun [codeUnits "temperature", codeUnits "humidity"]
        ([RecEvent.reading (codeUnits "temperature") 21]
          ++ [RecEvent.reading (codeUnits "humidity") 17])).timeoutActive
        = false
    ∧ (recRun [codeUnits "temperature", codeUnits "humidity"]
        ([RecEvent.reading (codeUnits "temperature") 21]
          ++ [RecEvent.reading (codeUnits "humidity") 17])).stopScanIssued
        = true
    ∧ [codeUnits "temperature", codeUnits "humidity"]
        ⊆ (recRun [codeUnits "temperature", codeUnits "humidity"]
            ([RecEvent.reading (codeUnits "temperature") 21]
              ++ [RecEvent.reading (codeUnits "humidity") 17])).record.map
            Prod.fst
    ∧ recRun [codeUnits "temperature", codeUnits "humidity"]
        ([RecEvent.reading (codeUnits "temperature") 21]
          ++ [RecEvent.reading (codeUnits "humidity") 17, RecEvent.deadline])
        = recRun [codeUnits "temperature", codeUnits "humidity"]
            ([RecEvent.reading (codeUnits "temperature") 21]
              ++ [RecEvent.reading (codeUnits "humidity") 17])
    ∧ (recRun [codeUnits "temperature", codeUnits "humidity"]
        ([RecEvent.reading (codeUnits "temperature") 21]
          ++ [RecEvent.reading (codeUnits "humidity") 17,
              RecEvent.scanStop])).outcome
        = some (.ok (recRun [codeUnits "temperature", codeUnits "humidity"]
            ([RecEvent.reading (codeUnits "temperature") 21]
              ++ [RecEvent.reading (codeUnits "humidity") 17])).record) :=
  claim5_complete_stop [codeUnits "temperature", codeUnits "humidity"]
    [RecEvent.reading (codeUnits "temperature") 21]
    (codeUnits "humidity") 17 rfl (by decide) (by decide)

end WeatherStation
